import Mathlib

/-!
Shallow embedding of `src/ambulance_signal_control.py` (VitalRoute).

The program's pure decision logic is translated into Lean:
* pheromone tables (`dict` of float) become association lists of `ℚ`;
* the mutable `junctions` dictionary becomes a function `String → Junction`
  threaded through every operation that mutates it;
* calls into the traffic simulator (`traci`) are modelled as explicit
  parameters: the controlled-link table, the per-vehicle route info, the
  per-tick present-vehicle set;
* `random.choices` becomes an injected chooser `pick : ℕ → List ℚ → ℕ`
  receiving the step number and the computed selection weights, and
  selecting an index into the candidate list (mod its length).
-/

namespace VitalRoute

/-- `JUNCTIONS = ["J1", ..., "J6"]` from the configuration section. -/
def JUNCTIONS : List String := ["J1", "J2", "J3", "J4", "J5", "J6"]

/-- `PHEROMONE_DECAY = 0.95`. -/
def PHEROMONE_DECAY : ℚ := 95 / 100

/-- `PHEROMONE_DEPOSIT = 1.0`. -/
def PHEROMONE_DEPOSIT : ℚ := 1

/-- `AMBULANCE_IDS = ["ambulance_1", "ambulance_2"]`. -/
def AMBULANCE_IDS : List String := ["ambulance_1", "ambulance_2"]

/-- `AMBULANCE_PRIORITIES` as in the source: `ambulance_2` is CODE_BLACK
(highest), `ambulance_1` is CODE_RED. -/
def AMBULANCE_PRIORITIES : String → String := fun a =>
  if a = "ambulance_2" then "CODE_BLACK" else "CODE_RED"

/-- Python `dict` assignment `m[k] = v` on an association list: replaces the
(first) binding of `k`, or appends a new one. -/
def dictInsert {β : Type} : List (String × β) → String → β → List (String × β)
  | [], k, v => [(k, v)]
  | (k', v') :: rest, k, v =>
      if k' = k then (k, v) :: rest else (k', v') :: dictInsert rest k v

/-- `class Junction`: id, pheromone table (dict neighbour-id ↦ value),
traffic level (vehicle count, refreshed from the environment). -/
structure Junction where
  id : String
  pheromone : List (String × ℚ)
  traffic_level : ℕ
  deriving Repr, DecidableEq

/-- The `junctions` dictionary keyed by junction id. -/
def Junctions : Type := String → Junction

/-- Pointwise update of the `junctions` dictionary. -/
def updJ (js : Junctions) (k : String) (j : Junction) : Junctions :=
  fun s => if s = k then j else js s

/-- `Junction.update_pheromone`: seeds a missing entry at `0`, then stores
`current * PHEROMONE_DECAY + value`. -/
def Junction.update_pheromone (self : Junction) (next_junction : String)
    (value : ℚ) : Junction :=
  let current := (self.pheromone.lookup next_junction).getD 0
  { self with
    pheromone :=
      dictInsert self.pheromone next_junction
        (current * PHEROMONE_DECAY + value) }

/-- The simulator-owned topology consumed by the optimizer:
`controlled_links j` is `traci.trafficlight.getControlledLinks(j)`, a list of
link slots, each slot a (possibly empty) list of `(from_edge, to_edge)`
pairs (the unused `via` component is dropped). -/
structure Env where
  controlled_links : String → List (List (String × String))

/-- `listPre a b` decides whether `a` is an initial segment of `b`
(structural recursion, so it reduces in the kernel). -/
def listPre : List Char → List Char → Bool
  | [], _ => true
  | _ :: _, [] => false
  | a :: as, b :: bs => a == b && listPre as bs

/-- Python `s.startswith(p)`. -/
def strStartsWith (s p : String) : Bool := listPre p.data s.data

/-- Python `s.endswith(p)`. -/
def strEndsWith (s p : String) : Bool := listPre p.data.reverse s.data.reverse

/-- `get_next_junctions`: collects every junction id `j ≠ current` such that
some slot's `to_edge` ends with `j`.  The Python version accumulates into a
`set`; here the set is an insertion-ordered duplicate-free list. -/
def get_next_junctions (env : Env) (current_junction : String) : List String :=
  (env.controlled_links current_junction).foldl
    (fun acc links =>
      match links with
      | [] => acc
      | (_, to_edge) :: _ =>
          JUNCTIONS.foldl
            (fun acc2 j =>
              if j ≠ current_junction ∧ strEndsWith to_edge j ∧ ¬ j ∈ acc2 then
                acc2 ++ [j]
              else acc2)
            acc)
    []

/-- `calculate_route_score`: seeds a missing pheromone entry at `1.0`
(a mutation of the junctions dictionary), then returns
`pheromone^2 / (traffic_level + 1)` together with the mutated dictionary. -/
def calculate_route_score (from_junction to_junction : String)
    (junctions : Junctions) : ℚ × Junctions :=
  let junctions1 :=
    if ((junctions from_junction).pheromone.lookup to_junction) = none then
      updJ junctions from_junction
        { junctions from_junction with
          pheromone :=
            dictInsert (junctions from_junction).pheromone to_junction 1 }
    else junctions
  let pheromone := ((junctions1 from_junction).pheromone.lookup to_junction).getD 0
  let traffic : ℚ := ((junctions1 to_junction).traffic_level : ℚ) + 1
  (pheromone ^ 2 / traffic, junctions1)

/-- Lines 112-116 of the source: uniform weights when the total score is
zero, otherwise `score / total` for each score. -/
def selection_probabilities (scores : List ℚ) : List ℚ :=
  if scores.sum = 0 then
    scores.map (fun _ => 1 / (scores.length : ℚ))
  else
    scores.map (fun s => s / scores.sum)

/-- Line 111: the list comprehension scoring each candidate left to right,
threading the pheromone-seeding mutation of `calculate_route_score`. -/
def score_fold (current : String) (next_possible : List String)
    (junctions : Junctions) : List ℚ × Junctions :=
  next_possible.foldl
    (fun acc next_j =>
      let r := calculate_route_score current next_j acc.2
      (acc.1 ++ [r.1], r.2))
    ([], junctions)

/-- The `while len(route) < len(JUNCTIONS)` loop of `find_best_route`,
with explicit fuel (each iteration appends one junction, so
`JUNCTIONS.length` fuel is never exhausted before the guard stops it). -/
def route_loop (env : Env) (pick : ℕ → List ℚ → ℕ) :
    ℕ → ℕ → List String → String → List String → Junctions →
    List String × Junctions
  | 0, _, route, _, _, js => (route, js)
  | fuel + 1, step, route, current, visited, js =>
      if route.length < JUNCTIONS.length then
        let next_possible :=
          (get_next_junctions env current).filter (fun j => !(visited.contains j))
        if next_possible = [] then (route, js)
        else
          let sc := score_fold current next_possible js
          let probabilities := selection_probabilities sc.1
          let next_junction :=
            next_possible.getD (pick step probabilities % next_possible.length) ""
          route_loop env pick fuel (step + 1) (route ++ [next_junction])
            next_junction (visited ++ [next_junction]) sc.2
      else (route, js)

/-- `find_best_route`: returns `[]` for an unknown start junction, otherwise
runs the stochastic walk.  The mutated junctions dictionary is returned
alongside the route (Python mutates it in place). -/
def find_best_route (env : Env) (pick : ℕ → List ℚ → ℕ)
    (current_junction : String) (junctions : Junctions) :
    List String × Junctions :=
  if ¬ current_junction ∈ JUNCTIONS then ([], junctions)
  else
    route_loop env pick JUNCTIONS.length 0 [current_junction] current_junction
      [current_junction] junctions

/-- `edge.split('_')[0]`: the characters before the first underscore. -/
def edgeBase (e : String) : String :=
  String.mk (e.data.takeWhile (fun c => !(c == '_')))

/-- Python truthiness of an optional edge string (`if current_edge and
next_edge`): present and non-empty. -/
def truthy : Option String → Bool
  | none => false
  | some s => !(s == "")

/-- Lines 163-164: `route.index(green_junction)` when present (else `-1`),
then the following route entry when one exists. -/
def route_next_junction (route : List String) (green_junction : String) :
    Option String :=
  if green_junction ∈ route then
    let i := route.indexOf green_junction
    if i < route.length - 1 then route.get? (i + 1) else none
  else none

/-- The first link of a slot, reduced to its direction key
`(from_edge_base, to_edge_base)`. -/
def slotKey (links : List (String × String)) : Option (String × String) :=
  match links with
  | [] => none
  | (f, t) :: _ => some (edgeBase f, edgeBase t)

/-- The body of the `for i, links in enumerate(controlled_links)` loop for a
single slot: the state is `(current_state, processed_directions)`. -/
def processLink1 (current_edge : String) (next_junction : Option String)
    (route : List String) (i : ℕ) (links : List (String × String))
    (st : List Char × List (String × String)) :
    List Char × List (String × String) :=
  match links with
  | [] => st
  | (from_edge, to_edge) :: _ =>
    let from_edge_base := edgeBase from_edge
    let to_edge_base := edgeBase to_edge
    let direction_key := (from_edge_base, to_edge_base)
    if current_edge = from_edge_base ∧ ¬ direction_key ∈ st.2 then
      match next_junction with
      | some nj =>
          if strEndsWith to_edge_base nj
              || route.any (fun j => strStartsWith to_edge_base j) then
            (st.1.set i 'G', direction_key :: st.2)
          else st
      | none => (st.1.set i 'G', direction_key :: st.2)
    else st

/-- The indexed loop over all link slots. -/
def processLinks (current_edge : String) (next_junction : Option String)
    (route : List String) :
    List (List (String × String)) → ℕ →
    List Char × List (String × String) → List Char × List (String × String)
  | [], _, st => st
  | l :: rest, i, st =>
      processLinks current_edge next_junction route rest (i + 1)
        (processLink1 current_edge next_junction route i l st)

/-- Lines 156-186: processing of one ambulance in priority order. -/
def processAmbulance (route_info : String → Option String × Option String)
    (routes : List (String × List String)) (green_junction : String)
    (controlled_links : List (List (String × String)))
    (st : List Char × List (String × String)) (ambulance_id : String) :
    List Char × List (String × String) :=
  let ce := (route_info ambulance_id).1
  let ne := (route_info ambulance_id).2
  if truthy ce && truthy ne then
    let current_edge := ce.getD ""
    let route := (routes.lookup ambulance_id).getD []
    let next_junction := route_next_junction route green_junction
    processLinks current_edge next_junction route controlled_links 0 st
  else st

/-- Lines 141-150: the approaching list, stably sorted by the binary key
`0 if CODE_BLACK else 1` (a stable sort on a two-valued key is exactly the
stable partition: all CODE_BLACK vehicles first, input order kept). -/
def approachingSorted (ambulance_ids : List String)
    (priorities : String → String)
    (route_info : String → Option String × Option String) : List String :=
  let approaching :=
    ambulance_ids.filter (fun a => truthy (route_info a).1 && truthy (route_info a).2)
  approaching.filter (fun a => priorities a == "CODE_BLACK")
    ++ approaching.filter (fun a => !(priorities a == "CODE_BLACK"))

/-- `set_signals_for_ambulance`.  `none` models the early return when
preemption is disabled (no `setRedYellowGreenState` command is issued, the
junction's signal state is left untouched); `some s` models issuing the
state string `s`.  `prior_state` is the current signal state, used only for
its length (every position is overwritten with red first). -/
def set_signals_for_ambulance (preemption_enabled : Bool)
    (ambulance_ids : List String) (priorities : String → String)
    (route_info : String → Option String × Option String)
    (controlled_links : List (List (String × String)))
    (prior_state : List Char) (green_junction : String)
    (routes : List (String × List String)) : Option (List Char) :=
  if ¬ preemption_enabled then none
  else
    let current_state := prior_state.map (fun _ => 'r')
    let sorted := approachingSorted ambulance_ids priorities route_info
    some
      (sorted.foldl
        (fun st a => processAmbulance route_info routes green_junction
          controlled_links st a)
        (current_state, [])).1

/-- The per-tick ambulance bookkeeping state of `run_simulation`:
start/end time tables, the `active_ambulances` set (kept as an
insertion-ordered list) and the `ambulance_active` flag. -/
structure TrackState where
  start_times : List (String × ℚ)
  end_times : List (String × ℚ)
  active : List String
  ambulance_active : Bool
  deriving Repr, DecidableEq

/-- Fresh tracker at the start of a run. -/
def initTrack : TrackState := ⟨[], [], [], false⟩

/-- One tick of the tracking logic (lines 236-283): `present` is the set of
ambulance ids reported by the simulator this tick, `simulation_time` the
tick's time.  New ambulances get a start time; ambulances in `active` but
not present get an end time — but only inside the `if current_ambulances:`
branch, i.e. only when at least one ambulance is still present. -/
def trackStep (present : List String) (simulation_time : ℚ)
    (st : TrackState) : TrackState :=
  let current := AMBULANCE_IDS.filter (fun a => present.contains a)
  if current = [] then
    if st.ambulance_active then
      { st with ambulance_active := false }
    else st
  else
    let news := current.filter (fun a => !(st.active.contains a))
    let start_times :=
      news.foldl (fun m a => dictInsert m a simulation_time) st.start_times
    let active1 := st.active ++ news
    let finished := active1.filter (fun a => !(current.contains a))
    let end_times :=
      finished.foldl (fun m a => dictInsert m a simulation_time) st.end_times
    let active2 := active1.filter (fun a => current.contains a)
    ⟨start_times, end_times, active2, true⟩

/-- A fresh junctions dictionary: every junction with empty pheromone table
and zero traffic, as built at the start of `run_simulation`. -/
def freshJunctions : Junctions := fun s => Junction.mk s [] 0

/-- A topology with no controlled links anywhere. -/
def envEmpty : Env := ⟨fun _ => []⟩

/-- A topology in which `J1` has a single slot whose exit edge leads to
`J2`, and every other junction has no links. -/
def envLine : Env := ⟨fun s => if s = "J1" then [[("E0", "EJ2")]] else []⟩

/-- The chooser that always picks index 0 (a fixed random seed). -/
def pickZero : ℕ → List ℚ → ℕ := fun _ _ => 0

/-! ## Helper lemmas -/

theorem dictInsert_lookup_self {β : Type} (m : List (String × β)) (k : String)
    (v : β) : (dictInsert m k v).lookup k = some v := by
  induction m with
  | nil => simp [dictInsert, List.lookup]
  | cons hd tl ih =>
    obtain ⟨k', v'⟩ := hd
    by_cases h : k' = k
    · simp [dictInsert, h, List.lookup]
    · simp only [dictInsert, if_neg h, List.lookup]
      have : (k == k') = false := by
        simp [beq_iff_eq]; exact fun hk => h hk.symm
      rw [this]
      exact ih

theorem dictInsert_lookup_ne {β : Type} (m : List (String × β)) (k k' : String)
    (v : β) (h : k' ≠ k) : (dictInsert m k v).lookup k' = m.lookup k' := by
  induction m with
  | nil =>
    simp only [dictInsert, List.lookup]
    have : (k' == k) = false := by simp [beq_iff_eq]; exact h
    rw [this]
  | cons hd tl ih =>
    obtain ⟨a, b⟩ := hd
    by_cases ha : a = k
    · subst ha
      simp only [dictInsert, if_pos rfl, List.lookup]
      have : (k' == a) = false := by simp [beq_iff_eq]; exact h
      rw [this]
    · simp only [dictInsert, if_neg ha, List.lookup]
      cases hb : (k' == a) with
      | true => rfl
      | false => exact ih

theorem list_getD_mem {α : Type} (l : List α) (i : ℕ) (d : α)
    (h : i < l.length) : l.getD i d ∈ l := by
  induction l generalizing i with
  | nil => simp at h
  | cons a t ih =>
    cases i with
    | zero => simp [List.getD]
    | succ n =>
      simp only [List.length_cons, Nat.succ_lt_succ_iff] at h
      simp only [List.getD, List.get?]
      right
      exact ih n h

/-! ## C3: decay-and-deposit -/

/-- C3 counterexample: the first `update_pheromone` of an unseen pair seeds
the prior value at `0`, not at the default `1.0`; with deposit `1` the
stored result is `1`, whereas the claim predicts `d*1.0 + 1 = 1.95`. -/
theorem C3_counterexample :
    ((Junction.mk "J1" [] 0).update_pheromone "J2" 1).pheromone.lookup "J2"
      = some 1
    ∧ (1 : ℚ) ≠ PHEROMONE_DECAY * 1 + 1 := by
  constructor
  · simp [Junction.update_pheromone, dictInsert, List.lookup]
  · norm_num [PHEROMONE_DECAY]

/-- C3 (amended): after `update_pheromone a b x` the stored value equals
`old * d + x` where `old` is the previously stored value or `0` (not `1.0`)
if the pair was never seen; `d = 0.95 ∈ (0,1)`; and the result is
nonnegative whenever `old ≥ 0` and `x ≥ 0`. -/
theorem C3_update_pheromone_amended (j : Junction) (nj : String) (x : ℚ) :
    (j.update_pheromone nj x).pheromone.lookup nj
      = some (((j.pheromone.lookup nj).getD 0) * PHEROMONE_DECAY + x)
    ∧ 0 < PHEROMONE_DECAY ∧ PHEROMONE_DECAY < 1
    ∧ (0 ≤ (j.pheromone.lookup nj).getD 0 → 0 ≤ x →
        0 ≤ ((j.pheromone.lookup nj).getD 0) * PHEROMONE_DECAY + x) := by
  refine ⟨?_, by norm_num [PHEROMONE_DECAY], by norm_num [PHEROMONE_DECAY], ?_⟩
  · simp [Junction.update_pheromone, dictInsert_lookup_self]
  · intro h1 h2
    have hd : (0 : ℚ) ≤ PHEROMONE_DECAY := by norm_num [PHEROMONE_DECAY]
    exact add_nonneg (mul_nonneg h1 hd) h2

/-- Witness for the amended C3 at a concrete junction with a stored value. -/
theorem C3_update_pheromone_amended_witness :
    (0 : ℚ) ≤ ((Junction.mk "J1" [("J2", 2)] 0).pheromone.lookup "J2").getD 0
    ∧ (0 : ℚ) ≤ 3
    ∧ ((Junction.mk "J1" [("J2", 2)] 0).update_pheromone "J2" 3).pheromone.lookup "J2"
        = some ((((Junction.mk "J1" [("J2", 2)] 0).pheromone.lookup "J2").getD 0)
            * PHEROMONE_DECAY + 3)
    ∧ 0 ≤ (((Junction.mk "J1" [("J2", 2)] 0).pheromone.lookup "J2").getD 0)
        * PHEROMONE_DECAY + 3 :=
  ⟨by norm_num [List.lookup], by norm_num,
   (C3_update_pheromone_amended (Junction.mk "J1" [("J2", 2)] 0) "J2" 3).1,
   (C3_update_pheromone_amended (Junction.mk "J1" [("J2", 2)] 0) "J2" 3).2.2.2
     (by norm_num [List.lookup]) (by norm_num)⟩

/-! ## C9: disabled preemption -/

/-- C9: with preemption disabled the arbiter returns `none` — no per-link
signal command is issued and the junction's state is left untouched
(`none` is the explicit no-op, distinct from `some` of an all-red string). -/
theorem C9_disabled_preemption_unmanaged (ambulance_ids : List String)
    (priorities : String → String)
    (route_info : String → Option String × Option String)
    (controlled_links : List (List (String × String)))
    (prior_state : List Char) (green_junction : String)
    (routes : List (String × List String)) :
    set_signals_for_ambulance false ambulance_ids priorities route_info
      controlled_links prior_state green_junction routes = none := rfl

/-! ## C10: scoring mutates the pheromone table -/

/-- C10: `calculate_route_score` on a pair with no pheromone entry writes
the default `1.0` into the table (so scoring is not read-only), and a
subsequent `update_pheromone` on that pair decays from `1.0`, storing
`1 * d + x`, not starting from an absent entry. -/
theorem C10_scoring_mutates_pheromone (f t : String) (js : Junctions) (x : ℚ)
    (h : (js f).pheromone.lookup t = none) :
    (((calculate_route_score f t js).2 f).pheromone.lookup t = some 1)
    ∧ ((((calculate_route_score f t js).2 f).update_pheromone t x).pheromone.lookup t
        = some (1 * PHEROMONE_DECAY + x)) := by
  have h1 : ((calculate_route_score f t js).2 f).pheromone.lookup t = some 1 := by
    simp [calculate_route_score, h, updJ, dictInsert_lookup_self]
  refine ⟨h1, ?_⟩
  simp [Junction.update_pheromone, h1, dictInsert_lookup_self]

/-- Witness for C10 on a fresh junctions dictionary. -/
theorem C10_scoring_mutates_pheromone_witness :
    (freshJunctions "J1").pheromone.lookup "J2" = none
    ∧ (((calculate_route_score "J1" "J2" freshJunctions).2 "J1").pheromone.lookup "J2"
        = some 1)
    ∧ ((((calculate_route_score "J1" "J2" freshJunctions).2 "J1").update_pheromone "J2" 2).pheromone.lookup "J2"
        = some (1 * PHEROMONE_DECAY + 2)) :=
  ⟨by decide,
   (C10_scoring_mutates_pheromone "J1" "J2" freshJunctions 2 (by decide)).1,
   (C10_scoring_mutates_pheromone "J1" "J2" freshJunctions 2 (by decide)).2⟩

/-! ## C6: vehicle lifecycle tracking -/

/-- C6: the finished-ambulance bookkeeping sits inside the
`if current_ambulances:` branch, so when the vehicle that disappears is
the last one present, its end time is never recorded.  Here
`ambulance_1` is present at time 10 (start recorded) and absent at
time 26 with no other ambulance present: `end_times` stays empty,
contradicting the claim that the end time is recorded on the first tick
the vehicle is no longer reported present. -/
theorem C6_lost_end_time :
    (trackStep ["ambulance_1"] 10 initTrack).start_times.lookup "ambulance_1"
      = some 10
    ∧ (trackStep ["ambulance_1"] 10 initTrack).active = ["ambulance_1"]
    ∧ (trackStep [] 26 (trackStep ["ambulance_1"] 10 initTrack)).end_times
        = [] := by decide

/-! ## C4: candidate scores and selection weights -/

/-- C4: each candidate is scored `pheromone^2 / (congestion + 1)` (with the
default `1.0` for an unseen pair), the selection weights are `score/total`
when the total is nonzero and uniform `1/n` when it is zero, and for a
non-empty candidate list the weights sum to `1`. -/
theorem C4_scores_and_weights (f t : String) (js : Junctions)
    (scores : List ℚ) (hne : scores ≠ []) :
    (calculate_route_score f t js).1
      = (((js f).pheromone.lookup t).getD 1) ^ 2
        / (((js t).traffic_level : ℚ) + 1)
    ∧ (scores.sum = 0 →
        selection_probabilities scores
          = scores.map fun _ => 1 / (scores.length : ℚ))
    ∧ (scores.sum ≠ 0 →
        selection_probabilities scores = scores.map fun s => s / scores.sum)
    ∧ (selection_probabilities scores).sum = 1 := by
  refine ⟨?_, fun h => by simp [selection_probabilities, h],
    fun h => by simp [selection_probabilities, h], ?_⟩
  · by_cases h : (js f).pheromone.lookup t = none
    · by_cases htf : t = f
      · subst htf
        simp [calculate_route_score, h, updJ, dictInsert_lookup_self]
      · simp [calculate_route_score, h, updJ, dictInsert_lookup_self, htf]
    · obtain ⟨v, hv⟩ := Option.ne_none_iff_exists'.1 h
      simp [calculate_route_score, hv]
  · have hlen : (scores.length : ℚ) ≠ 0 := by
      exact_mod_cast Nat.pos_iff_ne_zero.1 (List.length_pos.2 hne)
    by_cases hz : scores.sum = 0
    · simp only [selection_probabilities, if_pos hz]
      rw [List.map_const', List.sum_replicate, nsmul_eq_mul]
      field_simp
    · simp only [selection_probabilities, if_neg hz]
      simp only [div_eq_mul_inv]
      rw [show (scores.map fun s => s * scores.sum⁻¹)
            = scores.map fun s => id s * scores.sum⁻¹ from rfl,
        List.sum_map_mul_right, List.map_id]
      exact mul_inv_cancel₀ hz

/-- Witness for C4 on the concrete score list `[1, 3]`. -/
theorem C4_scores_and_weights_witness :
    ([(1 : ℚ), 3] ≠ [])
    ∧ (selection_probabilities [(1 : ℚ), 3]).sum = 1
    ∧ ([(1 : ℚ), 3].sum ≠ 0)
    ∧ selection_probabilities [(1 : ℚ), 3]
        = ([(1 : ℚ), 3].map fun s => s / [(1 : ℚ), 3].sum)
    ∧ (calculate_route_score "J1" "J2" freshJunctions).1
        = (((freshJunctions "J1").pheromone.lookup "J2").getD 1) ^ 2
          / (((freshJunctions "J2").traffic_level : ℚ) + 1) :=
  ⟨by simp,
   (C4_scores_and_weights "J1" "J2" freshJunctions [(1 : ℚ), 3] (by simp)).2.2.2,
   by norm_num,
   (C4_scores_and_weights "J1" "J2" freshJunctions [(1 : ℚ), 3] (by simp)).2.2.1
     (by norm_num),
   (C4_scores_and_weights "J1" "J2" freshJunctions [(1 : ℚ), 3] (by simp)).1⟩

/-! ## C2: vehicle whose route lacks the junction -/

/-- C2 counterexample: the single approaching vehicle's planned route
`["J9"]` does not contain the arbitrated junction `J5`, yet the arbiter
sets the link from its approach GREEN (the `route.index` miss yields
`next_junction = None`, which falls into the all-directions-green branch)
instead of skipping the vehicle and leaving the state all-red. -/
theorem C2_counterexample :
    ¬ ("J5" ∈ (["J9"] : List String))
    ∧ set_signals_for_ambulance true ["ambulance_1"] (fun _ => "CODE_RED")
        (fun _ => (some "E1", some "E2")) [[("E1_0", "E2_0")]] ['r'] "J5"
        [("ambulance_1", ["J9"])] = some ['G'] := by decide

/-- C2 (amended): a vehicle whose route does not contain the junction is
not skipped; it is handled exactly like a vehicle with no known next
junction — `route_next_junction` yields `none`, and in that mode every
link from the vehicle's current approach whose direction key is still
unclaimed is set GREEN and claimed. -/
theorem C2_not_skipped_amended (route : List String) (green_junction : String)
    (h : ¬ green_junction ∈ route) :
    route_next_junction route green_junction = none
    ∧ (∀ (ce : String) (i : ℕ) (f t : String) (rest : List (String × String))
        (st : List Char × List (String × String)),
        ce = edgeBase f → ¬ (edgeBase f, edgeBase t) ∈ st.2 →
        processLink1 ce none route i ((f, t) :: rest) st
          = (st.1.set i 'G', (edgeBase f, edgeBase t) :: st.2)) := by
  constructor
  · simp [route_next_junction, h]
  · intro ce i f t rest st hce hkey
    simp [processLink1, hce, hkey]

/-- Witness for the amended C2 on a concrete link slot. -/
theorem C2_not_skipped_amended_witness :
    ¬ ("J5" ∈ (["J9"] : List String))
    ∧ route_next_junction ["J9"] "J5" = none
    ∧ processLink1 "E1" none ["J9"] 0 [("E1_0", "E2_0")]
        (['r'], []) = (['G'], [("E1", "E2")]) := by
  refine ⟨by decide, (C2_not_skipped_amended ["J9"] "J5" (by decide)).1, ?_⟩
  exact ((C2_not_skipped_amended ["J9"] "J5" (by decide)).2 "E1" 0 "E1_0" "E2_0"
    [] (['r'], []) (by decide) (by decide)).trans (by decide)

/-! ## C7: which links become GREEN when the target is known -/

/-- C7 counterexample: the vehicle's route is `J1, J2, J3`, arbitrated at
`J2` with target `J3`; the link from its approach exits toward `J1A`,
which neither leads to the target (`J1A` does not end with `J3`) nor
toward the remaining route (it does not start with `J3`) — it only
matches `J1`, a junction already behind the vehicle.  The code still sets
it GREEN, because line 180 scans the whole route, not the remaining
portion. -/
theorem C7_counterexample :
    route_next_junction ["J1", "J2", "J3"] "J2" = some "J3"
    ∧ (strEndsWith "J1A" "J3" = false)
    ∧ (strStartsWith "J1A" "J3" = false)
    ∧ (strStartsWith "J1A" "J1" = true)
    ∧ set_signals_for_ambulance true ["ambulance_1"] (fun _ => "CODE_RED")
        (fun _ => (some "E1", some "E9")) [[("E1_0", "J1A_0")]] ['r'] "J2"
        [("ambulance_1", ["J1", "J2", "J3"])] = some ['G'] := by decide

/-- C7 (amended): for a single approaching vehicle with known target `t`
and a single link slot, the slot is set GREEN exactly when it starts from
the vehicle's approach and its destination segment either ends with `t`
or starts with any junction appearing anywhere in the vehicle's route —
including junctions already traversed, not only the remaining portion. -/
theorem C7_green_condition_amended (amb ce ne gj t : String)
    (prio : String → String) (rt : List String) (f to_e : String)
    (rest : List (String × String)) (c : Char)
    (hce : ce ≠ "") (hne : ne ≠ "")
    (hnj : route_next_junction rt gj = some t) :
    set_signals_for_ambulance true [amb] prio (fun _ => (some ce, some ne))
      [(f, to_e) :: rest] [c] gj [(amb, rt)]
      = some [if ce = edgeBase f ∧
                (strEndsWith (edgeBase to_e) t = true
                  ∨ (rt.any fun j => strStartsWith (edgeBase to_e) j) = true)
              then 'G' else 'r'] := by
  have htr : (truthy (some ce) && truthy (some ne)) = true := by
    simp only [truthy, Bool.and_eq_true, Bool.not_eq_true', beq_eq_false_iff_ne]
    exact ⟨hce, hne⟩
  have hsorted : approachingSorted [amb] prio (fun _ => (some ce, some ne))
      = [amb] := by
    unfold approachingSorted
    rw [show ([amb].filter fun _ => truthy (some ce) && truthy (some ne))
          = [amb] by simp [htr]]
    by_cases hp : prio amb == "CODE_BLACK"
    · simp [List.filter, hp]
    · simp [List.filter, hp]
  unfold set_signals_for_ambulance
  rw [if_neg (by simp)]
  rw [hsorted]
  simp only [List.foldl_cons, List.foldl_nil, List.map_cons, List.map_nil]
  unfold processAmbulance
  rw [if_pos htr]
  simp only [Option.getD_some, List.lookup, beq_self_eq_true, hnj]
  simp only [processLinks, processLink1]
  by_cases hc : ce = edgeBase f
  · have hkey : ¬ (edgeBase f, edgeBase to_e)
        ∈ ((['r'], ([] : List (String × String))).2) := by simp
    rw [if_pos ⟨hc, hkey⟩]
    by_cases hcond : (strEndsWith (edgeBase to_e) t
        || (rt.any fun j => strStartsWith (edgeBase to_e) j)) = true
    · rw [if_pos hcond]
      have hp2 : (ce = edgeBase f ∧
          (strEndsWith (edgeBase to_e) t = true
            ∨ (rt.any fun j => strStartsWith (edgeBase to_e) j) = true)) := by
        refine ⟨hc, ?_⟩
        simpa [Bool.or_eq_true] using hcond
      rw [if_pos hp2]
      rfl
    · rw [if_neg hcond]
      have hp2 : ¬ (ce = edgeBase f ∧
          (strEndsWith (edgeBase to_e) t = true
            ∨ (rt.any fun j => strStartsWith (edgeBase to_e) j) = true)) := by
        intro hand
        exact hcond (by simpa [Bool.or_eq_true] using hand.2)
      rw [if_neg hp2]
  · rw [if_neg (fun hand => hc hand.1)]
    have hp2 : ¬ (ce = edgeBase f ∧
        (strEndsWith (edgeBase to_e) t = true
          ∨ (rt.any fun j => strStartsWith (edgeBase to_e) j) = true)) :=
      fun hand => hc hand.1
    rw [if_neg hp2]

/-- Witness for the amended C7: the behind-junction link of the
counterexample scenario satisfies the amended GREEN condition. -/
theorem C7_green_condition_amended_witness :
    ("E1" : String) ≠ ""
    ∧ ("E9" : String) ≠ ""
    ∧ route_next_junction ["J1", "J2", "J3"] "J2" = some "J3"
    ∧ set_signals_for_ambulance true ["ambulance_1"] (fun _ => "CODE_RED")
        (fun _ => (some "E1", some "E9")) [[("E1_0", "J1A_0")]] ['r'] "J2"
        [("ambulance_1", ["J1", "J2", "J3"])]
        = some [if ("E1" : String) = edgeBase "E1_0" ∧
                  (strEndsWith (edgeBase "J1A_0") "J3" = true
                    ∨ ((["J1", "J2", "J3"] : List String).any
                        fun j => strStartsWith (edgeBase "J1A_0") j) = true)
                then 'G' else 'r'] :=
  ⟨by decide, by decide, by decide,
   C7_green_condition_amended "ambulance_1" "E1" "E9" "J2" "J3"
     (fun _ => "CODE_RED") ["J1", "J2", "J3"] "E1_0" "J1A_0" [] 'r'
     (by decide) (by decide) (by decide)⟩

/-! ## C8: route construction and the pheromone table -/

/-- Relation between two pheromone states: every entry is either unchanged
or was absent and has been seeded to the default `1.0` (the only mutation
the scoring function performs; no decay-and-deposit step). -/
def pher_preserved (js js2 : Junctions) : Prop :=
  ∀ a b, ((js2 a).pheromone.lookup b = (js a).pheromone.lookup b)
    ∨ ((js a).pheromone.lookup b = none ∧ (js2 a).pheromone.lookup b = some 1)

theorem pher_preserved_refl (js : Junctions) : pher_preserved js js :=
  fun _ _ => Or.inl rfl

theorem pher_preserved_trans {j1 j2 j3 : Junctions}
    (h12 : pher_preserved j1 j2) (h23 : pher_preserved j2 j3) :
    pher_preserved j1 j3 := by
  intro a b
  rcases h23 a b with h | ⟨h2n, h3s⟩
  · rw [h]; exact h12 a b
  · rcases h12 a b with h2e | ⟨h1n, h2s⟩
    · right
      refine ⟨?_, h3s⟩
      rw [← h2e]
      exact h2n
    · rw [h2n] at h2s
      cases h2s

theorem pher_preserved_calc (f t : String) (js : Junctions) :
    pher_preserved js (calculate_route_score f t js).2 := by
  intro a b
  by_cases h : (js f).pheromone.lookup t = none
  · simp only [calculate_route_score, if_pos h]
    by_cases haf : a = f
    · subst haf
      simp only [updJ, if_pos rfl]
      by_cases hbt : b = t
      · subst hbt
        right
        exact ⟨h, by simp [dictInsert_lookup_self]⟩
      · left
        simp [dictInsert_lookup_ne _ _ _ _ hbt]
    · left
      simp [updJ, haf]
  · left
    simp [calculate_route_score, if_neg h]

theorem pher_preserved_score_fold (current : String) :
    ∀ (l : List String) (acc : List ℚ × Junctions),
      pher_preserved acc.2
        ((l.foldl (fun acc next_j =>
          let r := calculate_route_score current next_j acc.2
          (acc.1 ++ [r.1], r.2)) acc)).2 := by
  intro l
  induction l with
  | nil => intro acc; exact pher_preserved_refl _
  | cons hd tl ih =>
    intro acc
    simp only [List.foldl_cons]
    exact pher_preserved_trans (pher_preserved_calc current hd acc.2) (ih _)

theorem pher_preserved_route_loop (env : Env) (pick : ℕ → List ℚ → ℕ) :
    ∀ (fuel step : ℕ) (route : List String) (current : String)
      (visited : List String) (js : Junctions),
      pher_preserved js
        (route_loop env pick fuel step route current visited js).2 := by
  intro fuel
  induction fuel with
  | zero => intro step route current visited js; exact pher_preserved_refl _
  | succ n ih =>
    intro step route current visited js
    simp only [route_loop]
    by_cases hlen : route.length < JUNCTIONS.length
    · rw [if_pos hlen]
      by_cases hemp : (get_next_junctions env current).filter
          (fun j => !(visited.contains j)) = []
      · rw [if_pos hemp]
        exact pher_preserved_refl _
      · rw [if_neg hemp]
        exact pher_preserved_trans
          (pher_preserved_score_fold current _ ([], js)) (ih _ _ _ _ _)
    · rw [if_neg hlen]
      exact pher_preserved_refl _

/-- C8 (amended): `find_best_route` never applies the decay-and-deposit
update `old*d + deposit` to any pheromone pair — traversed or not.  Its
only pheromone effect is the scoring function's seeding: after route
construction every entry of the pheromone table either equals its prior
value or was absent and now holds the default `1.0`. -/
theorem C8_no_deposit_during_route_construction (env : Env)
    (pick : ℕ → List ℚ → ℕ) (start : String) (js : Junctions) :
    pher_preserved js (find_best_route env pick start js).2 := by
  unfold find_best_route
  by_cases h : start ∈ JUNCTIONS
  · rw [if_neg (fun hn => hn h)]
    exact pher_preserved_route_loop env pick _ _ _ _ _ _
  · rw [if_pos h]
    exact pher_preserved_refl _

/-- C8 counterexample: on a line topology the produced route traverses
`J1 → J2`, but the stored pheromone for that pair afterwards is the seeded
read-default `1.0`, not `1.0 * d + deposit = 1.95` — the value a single
`decay_and_deposit` invocation on the traversed pair would have left.  So
`decay_and_deposit` is not invoked (once) per traversed pair. -/
theorem C8_counterexample :
    (find_best_route envLine pickZero "J1" freshJunctions).1 = ["J1", "J2"]
    ∧ ((find_best_route envLine pickZero "J1" freshJunctions).2 "J1").pheromone.lookup "J2"
        = some 1
    ∧ (1 : ℚ) ≠ 1 * PHEROMONE_DECAY + PHEROMONE_DEPOSIT := by
  refine ⟨by decide, by decide, ?_⟩
  norm_num [PHEROMONE_DECAY, PHEROMONE_DEPOSIT]

/-! ## C5: route shape invariants -/

theorem route_loop_inv (env : Env) (pick : ℕ → List ℚ → ℕ) :
    ∀ (fuel step : ℕ) (route : List String) (current : String)
      (visited : List String) (js : Junctions),
      route.Nodup → (∀ x ∈ route, x ∈ visited) → route ≠ [] →
      route.length ≤ JUNCTIONS.length →
      ((route_loop env pick fuel step route current visited js).1.Nodup
       ∧ (route_loop env pick fuel step route current visited js).1.length
           ≤ JUNCTIONS.length
       ∧ (route_loop env pick fuel step route current visited js).1 ≠ []
       ∧ (route_loop env pick fuel step route current visited js).1.headD ""
           = route.headD "") := by
  intro fuel
  induction fuel with
  | zero =>
    intro step route current visited js h1 h2 h3 h4
    exact ⟨h1, h4, h3, rfl⟩
  | succ n ih =>
    intro step route current visited js h1 h2 h3 h4
    simp only [route_loop]
    by_cases hlen : route.length < JUNCTIONS.length
    · rw [if_pos hlen]
      by_cases hemp : (get_next_junctions env current).filter
          (fun j => !(visited.contains j)) = []
      · rw [if_pos hemp]
        exact ⟨h1, h4, h3, rfl⟩
      · rw [if_neg hemp]
        set np := (get_next_junctions env current).filter
          (fun j => !(visited.contains j)) with hnp
        set sc := score_fold current np js with hsc
        set nj := np.getD
          (pick step (selection_probabilities sc.1) % np.length) "" with hnj
        have hmem : nj ∈ np := by
          rw [hnj]
          exact list_getD_mem np _ ""
            (Nat.mod_lt _ (List.length_pos.2 hemp))
        have hnotv : ¬ nj ∈ visited := by
          have := (List.mem_filter.1 (hnp ▸ hmem)).2
          simpa using this
        have hnotr : ¬ nj ∈ route := fun hr => hnotv (h2 _ hr)
        have h1' : (route ++ [nj]).Nodup := by
          simp [List.nodup_append, h1, hnotr]
        have h2' : ∀ x ∈ route ++ [nj], x ∈ visited ++ [nj] := by
          intro x hx
          rcases List.mem_append.1 hx with hx | hx
          · exact List.mem_append.2 (Or.inl (h2 _ hx))
          · exact List.mem_append.2 (Or.inr hx)
        have h3' : route ++ [nj] ≠ [] := by simp
        have h4' : (route ++ [nj]).length ≤ JUNCTIONS.length := by
          simp only [List.length_append, List.length_singleton]
          omega
        have hres := ih (step + 1) (route ++ [nj]) nj (visited ++ [nj]) sc.2
          h1' h2' h3' h4'
        refine ⟨hres.1, hres.2.1, hres.2.2.1, ?_⟩
        rw [hres.2.2.2]
        cases route with
        | nil => exact absurd rfl h3
        | cons a t => rfl
    · rw [if_neg hlen]
      exact ⟨h1, h4, h3, rfl⟩

/-- One unfolding of the loop: when the route can still grow but the start
has no unvisited neighbors, the loop stops immediately. -/
theorem route_loop_stop (env : Env) (pick : ℕ → List ℚ → ℕ)
    (fuel step : ℕ) (route : List String) (current : String)
    (visited : List String) (js : Junctions)
    (hlen : route.length < JUNCTIONS.length)
    (hemp : (get_next_junctions env current).filter
      (fun j => !(visited.contains j)) = []) :
    route_loop env pick (fuel + 1) step route current visited js
      = (route, js) := by
  simp only [route_loop]
  rw [if_pos hlen, if_pos hemp]

/-- C5: every route produced by `find_best_route` has pairwise-distinct
entries and length at most `|JUNCTIONS|`; for a known start junction the
first element is the start; and when the start has no unvisited neighbors
the route is exactly `[start]` (length 1). -/
theorem C5_route_shape (env : Env) (pick : ℕ → List ℚ → ℕ)
    (start : String) (js : Junctions) :
    (find_best_route env pick start js).1.Nodup
    ∧ (find_best_route env pick start js).1.length ≤ JUNCTIONS.length
    ∧ (start ∈ JUNCTIONS →
        (find_best_route env pick start js).1.headD "" = start)
    ∧ (start ∈ JUNCTIONS →
        (get_next_junctions env start).filter
          (fun j => !(([start] : List String).contains j)) = [] →
        (find_best_route env pick start js).1 = [start]) := by
  by_cases hs : start ∈ JUNCTIONS
  · have hone : (1 : ℕ) ≤ JUNCTIONS.length := by decide
    have hinv := route_loop_inv env pick JUNCTIONS.length 0 [start] start
      [start] js (by simp) (by simp) (by simp) (by simpa using hone)
    unfold find_best_route
    rw [if_neg (fun hn => hn hs)]
    refine ⟨hinv.1, hinv.2.1, fun _ => by simpa using hinv.2.2.2, fun _ hemp => ?_⟩
    have hlt : ([start] : List String).length < JUNCTIONS.length := by
      simp only [List.length_singleton]
      decide
    rw [show JUNCTIONS.length = 5 + 1 from rfl,
      route_loop_stop env pick 5 0 [start] start [start] js
        (by simpa using hlt) hemp]
  · unfold find_best_route
    rw [if_pos hs]
    exact ⟨by simp, by simp, fun h => absurd h hs, fun h => absurd h hs⟩

/-- Witness for C5 on a topology where `J1` has no neighbors at all. -/
theorem C5_route_shape_witness :
    ("J1" ∈ JUNCTIONS)
    ∧ (get_next_junctions envEmpty "J1").filter
        (fun j => !((["J1"] : List String).contains j)) = []
    ∧ (find_best_route envEmpty pickZero "J1" freshJunctions).1 = ["J1"]
    ∧ (find_best_route envEmpty pickZero "J1" freshJunctions).1.Nodup
    ∧ (find_best_route envEmpty pickZero "J1" freshJunctions).1.headD ""
        = "J1" :=
  ⟨by decide, by decide,
   (C5_route_shape envEmpty pickZero "J1" freshJunctions).2.2.2 (by decide)
     (by decide),
   (C5_route_shape envEmpty pickZero "J1" freshJunctions).1,
   (C5_route_shape envEmpty pickZero "J1" freshJunctions).2.2.1 (by decide)⟩

/-! ## C1: preemption priority dominance -/

theorem processLink1_sub (ce : String) (nj : Option String)
    (rt : List String) (i : ℕ) (l : List (String × String))
    (st : List Char × List (String × String)) :
    st.2 ⊆ (processLink1 ce nj rt i l st).2 := by
  rcases l with _ | ⟨⟨f, t⟩, rest⟩
  · exact List.Subset.refl _
  · simp only [processLink1]
    split_ifs
    · cases nj with
      | none => exact fun x hx => List.mem_cons_of_mem _ hx
      | some v =>
        dsimp only
        split_ifs
        · exact fun x hx => List.mem_cons_of_mem _ hx
        · exact List.Subset.refl _
    · exact List.Subset.refl _

theorem processLink1_get_ne (ce : String) (nj : Option String)
    (rt : List String) (i : ℕ) (l : List (String × String))
    (st : List Char × List (String × String)) (j : ℕ) (h : j ≠ i) :
    (processLink1 ce nj rt i l st).1.get? j = st.1.get? j := by
  rcases l with _ | ⟨⟨f, t⟩, rest⟩
  · rfl
  · simp only [processLink1]
    split_ifs
    · cases nj with
      | none => exact List.get?_set_ne _ _ (Ne.symm h)
      | some v =>
        dsimp only
        split_ifs
        · exact List.get?_set_ne _ _ (Ne.symm h)
        · rfl
    · rfl

theorem processLink1_frozen (ce : String) (nj : Option String)
    (rt : List String) (i : ℕ) (l : List (String × String))
    (st : List Char × List (String × String)) (k : String × String)
    (hk : slotKey l = some k) (hmem : k ∈ st.2) :
    processLink1 ce nj rt i l st = st := by
  rcases l with _ | ⟨⟨f, t⟩, rest⟩
  · rfl
  · simp only [slotKey, Option.some.injEq] at hk
    have hkm : (edgeBase f, edgeBase t) ∈ st.2 := hk ▸ hmem
    simp only [processLink1]
    rw [if_neg (fun hand => hand.2 hkm)]

theorem processLinks_frozen (ce : String) (nj : Option String)
    (rt : List String) :
    ∀ (links : List (List (String × String))) (i0 : ℕ)
      (st : List Char × List (String × String)) (j : ℕ) (k : String × String),
      (∀ (m : ℕ) (lm : List (String × String)),
        links.get? m = some lm → i0 + m = j → slotKey lm = some k) →
      k ∈ st.2 →
      ((processLinks ce nj rt links i0 st).1.get? j = st.1.get? j
       ∧ st.2 ⊆ (processLinks ce nj rt links i0 st).2) := by
  intro links
  induction links with
  | nil =>
    intro i0 st j k hslots hk
    exact ⟨rfl, List.Subset.refl _⟩
  | cons l rest ih =>
    intro i0 st j k hslots hk
    simp only [processLinks]
    by_cases hij : i0 = j
    · have hkey : slotKey l = some k := hslots 0 l rfl (by omega)
      rw [processLink1_frozen ce nj rt i0 l st k hkey hk]
      exact ih (i0 + 1) st j k
        (fun m lm hm hsum => absurd hsum (by omega)) hk
    · have hget : (processLink1 ce nj rt i0 l st).1.get? j = st.1.get? j :=
        processLink1_get_ne ce nj rt i0 l st j (fun he => hij he.symm)
      have hsub : st.2 ⊆ (processLink1 ce nj rt i0 l st).2 :=
        processLink1_sub ce nj rt i0 l st
      have hres := ih (i0 + 1) (processLink1 ce nj rt i0 l st) j k
        (fun m lm hm hsum => hslots (m + 1) lm (by simpa using hm) (by omega))
        (hsub hk)
      exact ⟨hres.1.trans hget, hsub.trans hres.2⟩

theorem processAmbulance_frozen
    (ri : String → Option String × Option String)
    (routes : List (String × List String)) (gj : String)
    (cls : List (List (String × String)))
    (st : List Char × List (String × String)) (a : String)
    (j : ℕ) (k : String × String)
    (hslots : ∀ (m : ℕ) (lm : List (String × String)),
      cls.get? m = some lm → m = j → slotKey lm = some k)
    (hk : k ∈ st.2) :
    ((processAmbulance ri routes gj cls st a).1.get? j = st.1.get? j
     ∧ st.2 ⊆ (processAmbulance ri routes gj cls st a).2) := by
  unfold processAmbulance
  by_cases h : (truthy (ri a).1 && truthy (ri a).2) = true
  · rw [if_pos h]
    exact processLinks_frozen _ _ _ cls 0 st j k
      (fun m lm hm hsum => hslots m lm hm (by omega)) hk
  · rw [if_neg h]
    exact ⟨rfl, List.Subset.refl _⟩

theorem foldAmb_frozen (ri : String → Option String × Option String)
    (routes : List (String × List String)) (gj : String)
    (cls : List (List (String × String))) (j : ℕ) (k : String × String)
    (hslots : ∀ (m : ℕ) (lm : List (String × String)),
      cls.get? m = some lm → m = j → slotKey lm = some k) :
    ∀ (post : List String) (st : List Char × List (String × String)),
      k ∈ st.2 →
      (post.foldl (fun st a => processAmbulance ri routes gj cls st a) st).1.get? j
        = st.1.get? j := by
  intro post
  induction post with
  | nil => intro st hk; rfl
  | cons a rest ih =>
    intro st hk
    simp only [List.foldl_cons]
    have h1 := processAmbulance_frozen ri routes gj cls st a j k hslots hk
    rw [ih _ (h1.2 hk), h1.1]

/-- C1: preemption dominance.  Split the priority-sorted processing order
as `pre ++ post` (every vehicle in `post` is processed after, hence ranks
no higher than, those in `pre`).  If after processing `pre` the direction
key of link slot `j` has been claimed, then the arbiter's final output at
slot `j` is exactly the state `pre` left there: no later-processed,
lower-priority vehicle changes a claimed link. -/
theorem C1_priority_dominance (ambulance_ids : List String)
    (priorities : String → String)
    (route_info : String → Option String × Option String)
    (controlled_links : List (List (String × String)))
    (prior_state : List Char) (green_junction : String)
    (routes : List (String × List String)) (pre post : List String)
    (j : ℕ) (k : String × String)
    (hsorted : approachingSorted ambulance_ids priorities route_info
      = pre ++ post)
    (hslots : ∀ (m : ℕ) (lm : List (String × String)),
      controlled_links.get? m = some lm → m = j → slotKey lm = some k)
    (hclaimed : k ∈ (pre.foldl
      (fun st a => processAmbulance route_info routes green_junction
        controlled_links st a)
      (prior_state.map (fun _ => 'r'), [])).2) :
    ((set_signals_for_ambulance true ambulance_ids priorities route_info
        controlled_links prior_state green_junction routes).getD []).get? j
      = (pre.foldl
          (fun st a => processAmbulance route_info routes green_junction
            controlled_links st a)
          (prior_state.map (fun _ => 'r'), [])).1.get? j := by
  unfold set_signals_for_ambulance
  rw [if_neg (by simp)]
  simp only [hsorted, List.foldl_append, Option.getD_some]
  exact foldAmb_frozen route_info routes green_junction controlled_links j k
    hslots post _ hclaimed

/-- Witness for C1: `ambulance_2` (CODE_BLACK) and `ambulance_1`
(CODE_RED) contest the single link from approach `E1`; the CODE_BLACK
vehicle is processed first and claims it GREEN, and the final output keeps
that assignment. -/
theorem C1_priority_dominance_witness :
    (((set_signals_for_ambulance true ["ambulance_1", "ambulance_2"]
        AMBULANCE_PRIORITIES (fun _ => (some "E1", some "E2"))
        [[("E1_0", "E2_0")]] ['r'] "J2"
        [("ambulance_2", ["J2"]), ("ambulance_1", ["J2"])]).getD []).get? 0
      = ((["ambulance_2"] : List String).foldl
          (fun st a => processAmbulance (fun _ => (some "E1", some "E2"))
            [("ambulance_2", ["J2"]), ("ambulance_1", ["J2"])] "J2"
            [[("E1_0", "E2_0")]] st a)
          ((['r'] : List Char).map (fun _ => 'r'), [])).1.get? 0)
    ∧ ((["ambulance_2"] : List String).foldl
        (fun st a => processAmbulance (fun _ => (some "E1", some "E2"))
          [("ambulance_2", ["J2"]), ("ambulance_1", ["J2"])] "J2"
          [[("E1_0", "E2_0")]] st a)
        ((['r'] : List Char).map (fun _ => 'r'), [])).1.get? 0 = some 'G' :=
  ⟨C1_priority_dominance ["ambulance_1", "ambulance_2"] AMBULANCE_PRIORITIES
    (fun _ => (some "E1", some "E2")) [[("E1_0", "E2_0")]] ['r'] "J2"
    [("ambulance_2", ["J2"]), ("ambulance_1", ["J2"])]
    ["ambulance_2"] ["ambulance_1"] 0 ("E1", "E2")
    (by decide)
    (by
      intro m lm hm hmj
      subst hmj
      simp only [List.get?] at hm
      cases hm
      decide)
    (by decide),
   by decide⟩

end VitalRoute
